import Mathlib

/-!
Verification of the Turbo agent runtime control plane: a shallow embedding of
the security hooks (`turbo/agent/hooks.py`), the resilient HTTP client
(`turbo/agent/http.py`) and the tool catalog (`turbo/agent/tools.py`),
together with theorems settling the frozen specification claims.

Conventions of the embedding:
- Python strings are Lean `String`; an absent dict key read with
  `.get(k, "")` is the empty string.
- Monotonic-clock instants are rationals (`ℚ`).
- Fallible calls (HTTP requests, issue resolution) are `Except` values
  supplied by oracles, one outcome per attempt.
- Async functions are pure state-passing functions: the asyncio locks in the
  source serialise each hook body, so one hook invocation is one atomic step.
-/

/-- Substring containment at the character-list level: `sub` occurs inside
`s`. Used to state deny-reason requirements such as containing "safety". -/
def strContains (s sub : String) : Prop :=
  ∃ a b : List Char, s.data = a ++ sub.data ++ b

theorem str_data_append (a b : String) : (a ++ b).data = a.data ++ b.data := rfl

/-- Outcome of a pre-tool-use hook: Python `{}` (continue) or the dict built
by `_deny(reason, event_name)` in `hooks.py`. -/
inductive HookDecision where
  | allow
  | deny (reason : String) (eventName : String)
deriving DecidableEq, Repr

/-! ## Project scope enforcement (`hooks.py`, `enforce_project_scope`) -/

/-- Tools that take `issue_id` instead of `project_id` (`_ISSUE_SCOPED_TOOLS`). -/
def issueScopedTools : List String :=
  ["mcp__turbo__get_issue",
   "mcp__turbo__update_issue",
   "mcp__turbo__start_issue_work",
   "mcp__turbo__log_work"]

/-- Tools that read across all projects (`_CROSS_PROJECT_TOOLS`). -/
def crossProjectTools : List String :=
  ["mcp__turbo__list_projects",
   "mcp__turbo__list_issues",
   "mcp__turbo__list_initiatives",
   "mcp__turbo__list_decisions",
   "mcp__turbo__get_work_queue",
   "mcp__turbo__get_next_issue"]

/-- Parse of `TURBO_ALLOWED_PROJECT_IDS` (`_get_allowed_project_ids`):
`none` when the raw value is blank, otherwise the non-blank comma-separated
entries (Python builds a set; we keep the list, using only membership). -/
def get_allowed_project_ids (raw : String) : Option (List String) :=
  if raw.trim = "" then none
  else some (((raw.splitOn ",").map String.trim).filter (fun s => s ≠ ""))

/-- Fields of `input_data` read by the scope hook: `tool_input.get("project_id", "")`,
`tool_input.get("issue_id", "")` and `input_data.get("hook_event_name", "PreToolUse")`. -/
structure ScopeInput where
  projectId : String
  issueId : String
  hookEventName : String
deriving DecidableEq, Repr

/-- Lookup in the `_issue_project_cache` dict (`dict.get`). -/
def cacheGet (c : List (String × String)) (k : String) : Option String :=
  match c with
  | [] => none
  | (k', v) :: rest => if k' = k then some v else cacheGet rest k

/-- Assignment `_issue_project_cache[k] = v`. -/
def cacheSet (c : List (String × String)) (k v : String) : List (String × String) :=
  match c with
  | [] => [(k, v)]
  | (k', v') :: rest => if k' = k then (k, v) :: rest else (k', v') :: cacheSet rest k v

/-- The `', '.join(sorted(allowed))` fragment of the deny messages. -/
def sortedJoin (l : List String) : String :=
  String.intercalate ", " (l.mergeSort (fun a b => decide (a ≤ b)))

/-- Shallow embedding of `enforce_project_scope` (hooks.py lines 88-171).
`allowedOpt` is the result of `_get_allowed_project_ids()`; `cache` is the
`_issue_project_cache`; `resolve i` is the awaited
`get_http_client().get("/issues/" + i)` followed by `.get("project_id", "")`,
with `.error ()` standing for a raised exception. Returns the hook decision
and the possibly-extended cache. -/
def enforce_project_scope (allowedOpt : Option (List String)) (toolName : String)
    (inp : ScopeInput) (cache : List (String × String))
    (resolve : String → Except Unit String) :
    HookDecision × List (String × String) :=
  match allowedOpt with
  | none => (.allow, cache)
  | some allowed =>
    if toolName ∈ crossProjectTools then
      let pid := inp.projectId
      if pid ≠ "" ∧ pid ∉ allowed then
        (.deny ("Project " ++ pid ++ " is not in the allowed scope. Allowed: "
                 ++ sortedJoin allowed) inp.hookEventName, cache)
      else (.allow, cache)
    else if inp.projectId ≠ "" then
      if inp.projectId ∉ allowed then
        (.deny ("Project " ++ inp.projectId ++ " is not in the allowed scope. Allowed: "
                 ++ sortedJoin allowed) inp.hookEventName, cache)
      else (.allow, cache)
    else if toolName ∈ issueScopedTools then
      if inp.issueId = "" then
        (.deny "issue_id is required but missing." inp.hookEventName, cache)
      else
        let cachedPid := (cacheGet cache inp.issueId).getD ""
        if cachedPid ≠ "" then
          if cachedPid ∉ allowed then
            (.deny ("Issue " ++ inp.issueId ++ " belongs to project " ++ cachedPid
                     ++ ", which is not in scope.") inp.hookEventName, cache)
          else (.allow, cache)
        else
          match resolve inp.issueId with
          | .ok resolvedPid =>
            if resolvedPid ≠ "" then
              let cache' := cacheSet cache inp.issueId resolvedPid
              if resolvedPid ∉ allowed then
                (.deny ("Issue " ++ inp.issueId ++ " belongs to project " ++ resolvedPid
                         ++ ", which is not in scope.") inp.hookEventName, cache')
              else (.allow, cache')
            else (.allow, cache)
          | .error _ =>
            (.deny ("Cannot verify project scope for issue " ++ inp.issueId
                     ++ ". Access denied for safety.") inp.hookEventName, cache)
    else (.allow, cache)

/-! ## Theorems about the scope gate (claims C1 and C2) -/

theorem issue_scoped_not_cross (t : String) (h : t ∈ issueScopedTools) :
    t ∉ crossProjectTools := by
  simp only [issueScopedTools, List.mem_cons, List.not_mem_nil, or_false] at h
  rcases h with h | h | h | h <;> subst h <;> decide

/-- Resolver oracle of the C1 counterexample: the backing service reports
project "B" as the owner of every issue. -/
def spoofResolver : String → Except Unit String := fun _ => .ok "B"

/-- Claim C1 is false as stated: with allow-list {"A"}, an `update_issue`
call whose `tool_input` carries a spurious `project_id="A"` next to
`issue_id="I2"` is admitted by the scope gate via the direct `project_id`
check, even though the resolved owning project of issue "I2" is "B", which
is not in the allow-list. The gate never consults the resolver. -/
theorem scope_gate_spoofed_project_id_bypass :
    (enforce_project_scope (some ["A"]) "mcp__turbo__update_issue"
        ⟨"A", "I2", "PreToolUse"⟩ [] spoofResolver).1 = .allow
    ∧ spoofResolver "I2" = .ok "B"
    ∧ "B" ∉ (["A"] : List String) :=
  ⟨by decide, rfl, by decide⟩

/-- Claim C1, amended: with a non-empty allow-list, (a) any admitted call
that carries a non-empty `project_id` argument has that project in the
allow-list, and (b) any admitted issue-scoped call WITHOUT a `project_id`
argument whose issue resolves (through a consistent cache or the resolver)
to a non-empty owning project has that owning project in the allow-list.
The amendment restricts part (b) to calls without a `project_id` argument,
as forced by the counterexample. -/
theorem scope_admission_in_allowlist :
    (∀ (allowed : List String) (tool : String) (inp : ScopeInput)
       (cache : List (String × String)) (resolve : String → Except Unit String),
      inp.projectId ≠ "" →
      (enforce_project_scope (some allowed) tool inp cache resolve).1 = .allow →
      inp.projectId ∈ allowed)
    ∧ (∀ (allowed : List String) (tool : String) (inp : ScopeInput)
         (cache : List (String × String)) (owner : String → String),
      (∀ i p, cacheGet cache i = some p → p = owner i) →
      tool ∈ issueScopedTools → inp.projectId = "" → owner inp.issueId ≠ "" →
      (enforce_project_scope (some allowed) tool inp cache
        (fun i => .ok (owner i))).1 = .allow →
      owner inp.issueId ∈ allowed) := by
  constructor
  · intro allowed tool inp cache resolve hpid hallow
    simp only [enforce_project_scope] at hallow
    by_cases hcross : tool ∈ crossProjectTools
    · rw [if_pos hcross] at hallow
      by_cases hmem : inp.projectId ∈ allowed
      · exact hmem
      · rw [if_pos ⟨hpid, hmem⟩] at hallow
        exact absurd hallow (by simp)
    · rw [if_neg hcross, if_pos hpid] at hallow
      by_cases hmem : inp.projectId ∈ allowed
      · exact hmem
      · rw [if_pos hmem] at hallow
        exact absurd hallow (by simp)
  · intro allowed tool inp cache owner hcache htool hpid hown hallow
    have hcross := issue_scoped_not_cross tool htool
    simp only [enforce_project_scope] at hallow
    rw [if_neg hcross, if_neg (by simp [hpid]), if_pos htool] at hallow
    have hiss : ¬ inp.issueId = "" := by
      intro h
      rw [if_pos h] at hallow
      exact absurd hallow (by simp)
    rw [if_neg hiss] at hallow
    by_cases hc : (cacheGet cache inp.issueId).getD "" ≠ ""
    · rw [if_pos hc] at hallow
      obtain ⟨p, hp⟩ : ∃ p, cacheGet cache inp.issueId = some p := by
        cases h : cacheGet cache inp.issueId with
        | none => rw [h] at hc; simp at hc
        | some p => exact ⟨p, rfl⟩
      have hpo : p = owner inp.issueId := hcache _ _ hp
      rw [hp] at hallow
      simp only [Option.getD_some] at hallow hc
      by_cases hmem : p ∈ allowed
      · rw [← hpo]; exact hmem
      · rw [if_pos hmem] at hallow
        exact absurd hallow (by simp)
    · rw [if_neg hc] at hallow
      rw [if_pos hown] at hallow
      by_cases hmem : owner inp.issueId ∈ allowed
      · exact hmem
      · rw [if_pos hmem] at hallow
        exact absurd hallow (by simp)

theorem scope_admission_in_allowlist_witness :
    ("A" : String) ∈ (["A"] : List String) :=
  scope_admission_in_allowlist.1 ["A"] "mcp__turbo__get_project"
    ⟨"A", "", "PreToolUse"⟩ [] (fun _ => .error ()) (by decide) (by decide)

/-- Claim C2: for an issue-scoped tool call under a configured allow-list,
with no `project_id` argument, a non-empty `issue_id` that is not cached,
and a resolver that raises, the scope gate denies with the fail-closed
reason, which contains the word "safety". -/
theorem scope_resolution_failure_fails_closed :
    ∀ (allowed : List String) (tool : String) (inp : ScopeInput)
      (cache : List (String × String)) (resolve : String → Except Unit String),
    allowed ≠ [] → tool ∈ issueScopedTools → inp.projectId = "" →
    inp.issueId ≠ "" → (cacheGet cache inp.issueId).getD "" = "" →
    resolve inp.issueId = .error () →
    (enforce_project_scope (some allowed) tool inp cache resolve).1
      = .deny ("Cannot verify project scope for issue " ++ inp.issueId
                ++ ". Access denied for safety.") inp.hookEventName
    ∧ strContains ("Cannot verify project scope for issue " ++ inp.issueId
                ++ ". Access denied for safety.") "safety" := by
  intro allowed tool inp cache resolve _ htool hpid hiss hnc hres
  constructor
  · have hcross := issue_scoped_not_cross tool htool
    simp only [enforce_project_scope]
    rw [if_neg hcross, if_neg (by simp [hpid]), if_pos htool, if_neg hiss]
    rw [if_neg (by simp [hnc]), hres]
  · refine ⟨("Cannot verify project scope for issue ").data ++ inp.issueId.data
        ++ (". Access denied for ").data, (".").data, ?_⟩
    have h2 : (". Access denied for safety.").data
        = (". Access denied for ").data ++ ("safety").data ++ (".").data := by decide
    calc (("Cannot verify project scope for issue " ++ inp.issueId)
            ++ ". Access denied for safety.").data
        = (("Cannot verify project scope for issue ").data ++ inp.issueId.data)
            ++ (". Access denied for safety.").data := by
          rw [str_data_append, str_data_append]
      _ = _ := by rw [h2]; simp [List.append_assoc]

theorem scope_resolution_failure_fails_closed_witness :
    (enforce_project_scope (some ["A"]) "mcp__turbo__update_issue"
        ⟨"", "I9", "PreToolUse"⟩ [] (fun _ => .error ())).1
      = .deny "Cannot verify project scope for issue I9. Access denied for safety."
          "PreToolUse"
    ∧ strContains "Cannot verify project scope for issue I9. Access denied for safety."
        "safety" :=
  scope_resolution_failure_fails_closed ["A"] "mcp__turbo__update_issue"
    ⟨"", "I9", "PreToolUse"⟩ [] (fun _ => .error ())
    (by decide) (by decide) rfl (by decide) rfl rfl

/-! ## Resilient HTTP client (`http.py`) -/

/-- Retry configuration constant `MAX_RETRIES`. -/
def MAX_RETRIES : ℕ := 3

/-- Statuses in `RETRYABLE_STATUS_CODES`. -/
def retryableStatusCodes : List ℕ := [502, 503, 504, 429]

/-- Circuit breaker constant `CIRCUIT_FAILURE_THRESHOLD`. -/
def CIRCUIT_FAILURE_THRESHOLD : ℕ := 5

/-- Circuit breaker constant `CIRCUIT_RECOVERY_TIMEOUT` (seconds). -/
def CIRCUIT_RECOVERY_TIMEOUT : ℚ := 30

/-- Constructor arguments of `TurboHTTPClient` that the request path reads. -/
structure ReqConfig where
  baseUrl : String
  maxRetries : ℕ
  circuitThreshold : ℕ
  circuitTimeout : ℚ
deriving DecidableEq, Repr

/-- The default client configuration (defaults of `TurboHTTPClient.__init__`,
with `TURBO_API_URL` unset). -/
def defaultConfig : ReqConfig :=
  { baseUrl := "http://localhost:8001/api/v1"
  , maxRetries := MAX_RETRIES
  , circuitThreshold := CIRCUIT_FAILURE_THRESHOLD
  , circuitTimeout := CIRCUIT_RECOVERY_TIMEOUT }

/-- Mutable circuit state of a `TurboHTTPClient`:
`_consecutive_failures` and `_circuit_open_until`. -/
structure ClientState where
  consecutiveFailures : ℕ
  circuitOpenUntil : Option ℚ
deriving DecidableEq, Repr

/-- Fields of a raised `TurboAPIError` (message, endpoint, status_code, body). -/
structure TurboAPIError where
  message : String
  endpoint : String
  statusCode : ℕ
  body : String
deriving DecidableEq, Repr

/-- Python `max(a, b)` on rationals. -/
def pyMax (a b : ℚ) : ℚ := if a ≤ b then b else a

/-- Python `round(q)` to an integer with ties to even, modelling the
`"%.0f"`-style float formatting used in the circuit-open message. Computed
on the numerator and denominator so that it evaluates by kernel reduction:
`f` is the floor and `r2 / d` is twice the fractional part. -/
def roundHalfEven (q : ℚ) : ℤ :=
  let n := q.num
  let d := (q.den : ℤ)
  let f := Int.fdiv n d
  let r2 := 2 * (n - f * d)
  if r2 < d then f
  else if d < r2 then f + 1
  else if f % 2 = 0 then f else f + 1

/-- The `f"{remaining:.0f}"` fragment: the rounded value, in decimal. -/
def formatDotZeroF (q : ℚ) : String := toString (roundHalfEven q)

/-- Construction of a `CircuitOpenError(recovery_at)` at clock instant `now`:
a `TurboAPIError` whose message announces the pause, with endpoint
`"(circuit breaker)"` and status code 0. -/
def circuitOpenError (recoveryAt now : ℚ) : TurboAPIError :=
  { message := "Circuit breaker open. API calls paused for "
        ++ formatDotZeroF (pyMax 0 (recoveryAt - now)) ++ "s."
  , endpoint := "(circuit breaker)"
  , statusCode := 0
  , body := "" }

/-- Embedding of `TurboAPIError.agent_message` (http.py lines 50-60). -/
def agent_message (e : TurboAPIError) : String :=
  if e.statusCode = 404 then
    "Error: " ++ e.endpoint ++ " not found (404). Try: Use a list tool to find valid IDs."
  else if e.statusCode = 422 then
    "Error: Invalid input for " ++ e.endpoint ++ " (422). Details: " ++ e.body
      ++ ". Try: Check required fields and value formats."
  else if e.statusCode = 409 then
    "Error: Conflict on " ++ e.endpoint ++ " (409). Details: " ++ e.body
      ++ ". Try: Check current state before retrying."
  else if 500 ≤ e.statusCode then
    "Error: Turbo API server error on " ++ e.endpoint ++ " (" ++ toString e.statusCode
      ++ "). Try: Wait a moment and retry."
  else
    "Error: " ++ e.endpoint ++ " returned " ++ toString e.statusCode ++ ". Details: " ++ e.body

/-- Embedding of `_check_circuit` at clock instant `now`: either raises
`CircuitOpenError` leaving the state unchanged, or passes — clearing the
deadline and resetting the failure counter when the recovery window has
elapsed (half-open probe admission). -/
def check_circuit (st : ClientState) (now : ℚ) : Except TurboAPIError ClientState :=
  match st.circuitOpenUntil with
  | some deadline =>
    if now < deadline then .error (circuitOpenError deadline now)
    else .ok { consecutiveFailures := 0, circuitOpenUntil := none }
  | none => .ok st

/-- Embedding of `_record_success`. -/
def record_success : ClientState := { consecutiveFailures := 0, circuitOpenUntil := none }

/-- Embedding of `_record_failure` at clock instant `now`. -/
def record_failure (cfg : ReqConfig) (st : ClientState) (now : ℚ) : ClientState :=
  let n := st.consecutiveFailures + 1
  if cfg.circuitThreshold ≤ n then
    { consecutiveFailures := n, circuitOpenUntil := some (now + cfg.circuitTimeout) }
  else
    { consecutiveFailures := n, circuitOpenUntil := st.circuitOpenUntil }

/-- Result of one transport attempt inside `_request`: a 2xx response with a
decoded body, an `httpx.HTTPStatusError` with status and body text, an
`httpx.ConnectError`/`ConnectTimeout`, or an `httpx.TimeoutException`. -/
inductive Outcome where
  | ok (body : String)
  | httpStatus (code : ℕ) (bodyText : String)
  | connectErr (msg : String)
  | timedOut
deriving DecidableEq, Repr

/-- The retry loop of `_request` (http.py lines 161-240). `attempts i` is the
clock instant and transport outcome of attempt number `i`; `fuel` counts the
iterations left in `range(max_retries + 1)` (the fuel-0 branch is the
unreachable "Should not reach here" fall-through). Returns the result, the
final circuit state, and the number of HTTP requests issued. -/
def attemptLoop (cfg : ReqConfig) (method path : String) (attempts : ℕ → ℚ × Outcome) :
    ℕ → ℕ → ClientState → Except TurboAPIError String × ClientState × ℕ
  | 0, i, st =>
    (.error { message := "Request failed after " ++ toString (cfg.maxRetries + 1) ++ " attempts"
            , endpoint := method ++ " " ++ path, statusCode := 0, body := "" }, st, i)
  | fuel + 1, i, st =>
    let now := (attempts i).1
    match (attempts i).2 with
    | .ok body => (.ok body, record_success, i + 1)
    | .httpStatus code bodyText =>
      if code ∈ retryableStatusCodes ∧ i < cfg.maxRetries then
        attemptLoop cfg method path attempts fuel (i + 1) (record_failure cfg st now)
      else
        (.error { message := method ++ " " ++ path ++ " failed with " ++ toString code
                , endpoint := method ++ " " ++ path
                , statusCode := code
                , body := bodyText.take 500 }, record_failure cfg st now, i + 1)
    | .connectErr msg =>
      if i < cfg.maxRetries then
        attemptLoop cfg method path attempts fuel (i + 1) (record_failure cfg st now)
      else
        (.error { message := "Cannot connect to Turbo API at " ++ cfg.baseUrl
                , endpoint := method ++ " " ++ path
                , statusCode := 0
                , body := msg }, record_failure cfg st now, i + 1)
    | .timedOut =>
      if i < cfg.maxRetries then
        attemptLoop cfg method path attempts fuel (i + 1) (record_failure cfg st now)
      else
        (.error { message := "Timeout on " ++ method ++ " " ++ path ++ " after "
                    ++ toString (cfg.maxRetries + 1) ++ " attempts"
                , endpoint := method ++ " " ++ path
                , statusCode := 0
                , body := "Request timed out" }, record_failure cfg st now, i + 1)

/-- Embedding of `TurboHTTPClient._request`: circuit check at entry instant
`tEntry`, then the retry loop. Returns the result, the final circuit state,
and the number of HTTP requests issued. -/
def request (cfg : ReqConfig) (method path : String) (st : ClientState) (tEntry : ℚ)
    (attempts : ℕ → ℚ × Outcome) : Except TurboAPIError String × ClientState × ℕ :=
  match check_circuit st tEntry with
  | .error e => (.error e, st, 0)
  | .ok st1 => attemptLoop cfg method path attempts (cfg.maxRetries + 1) 0 st1

/-! ## Tool response envelope (`tools.py`, `_text`, `_error`, `_safe_call`) -/

/-- An MCP tool response: the single text-content entry and the `isError`
flag. The JSON pretty-printing of successful payloads done by `_text` is
abstracted to the payload string itself. -/
structure ToolResponse where
  text : String
  isError : Bool
deriving DecidableEq, Repr

/-- Embedding of `_text`. -/
def textResponse (t : String) : ToolResponse := { text := t, isError := false }

/-- Embedding of `_error`. -/
def errorResponse (msg : String) : ToolResponse := { text := msg, isError := true }

/-- Embedding of `_safe_call` on a coroutine that either returns a payload or
raises a `TurboAPIError` (tools only raise `TurboAPIError` through the HTTP
client; the generic `except Exception` arm is unreachable in this model). -/
def safe_call (r : Except TurboAPIError String) : ToolResponse :=
  match r with
  | .ok body => textResponse body
  | .error e => errorResponse (agent_message e)

/-! ## Theorems about the circuit breaker and retry loop (claims C3-C6) -/

theorem attemptLoop_ok_step (cfg : ReqConfig) (m p : String) (a : ℕ → ℚ × Outcome)
    (fuel i : ℕ) (st : ClientState) (body : String) (h : (a i).2 = .ok body) :
    attemptLoop cfg m p a (fuel + 1) i st = (.ok body, record_success, i + 1) := by
  simp only [attemptLoop, h]

theorem attemptLoop_retry_step (cfg : ReqConfig) (m p : String) (a : ℕ → ℚ × Outcome)
    (fuel i : ℕ) (st : ClientState) (code : ℕ) (b : String)
    (h : (a i).2 = .httpStatus code b) (hc : code ∈ retryableStatusCodes)
    (hi : i < cfg.maxRetries) :
    attemptLoop cfg m p a (fuel + 1) i st
      = attemptLoop cfg m p a fuel (i + 1) (record_failure cfg st (a i).1) := by
  simp only [attemptLoop, h]
  rw [if_pos ⟨hc, hi⟩]

theorem attemptLoop_httpfail_step (cfg : ReqConfig) (m p : String) (a : ℕ → ℚ × Outcome)
    (fuel i : ℕ) (st : ClientState) (code : ℕ) (b : String)
    (h : (a i).2 = .httpStatus code b)
    (hno : ¬(code ∈ retryableStatusCodes ∧ i < cfg.maxRetries)) :
    attemptLoop cfg m p a (fuel + 1) i st
      = (.error { message := m ++ " " ++ p ++ " failed with " ++ toString code
                , endpoint := m ++ " " ++ p
                , statusCode := code
                , body := b.take 500 }, record_failure cfg st (a i).1, i + 1) := by
  simp only [attemptLoop, h]
  rw [if_neg hno]

/-- Claim C4: (defaults) the threshold is 5 and the recovery window 30 s;
(opening) when `_record_failure` brings the consecutive-failure counter to
the threshold, the deadline is set `circuit_timeout` in the future; and
(short-circuit) any call entered while the clock is before an armed deadline
returns the `CircuitOpenError` built from that deadline, leaves the state
untouched, and issues zero HTTP requests. -/
theorem circuit_open_short_circuits :
    (defaultConfig.circuitThreshold = 5 ∧ defaultConfig.circuitTimeout = 30)
    ∧ (∀ (cfg : ReqConfig) (st : ClientState) (now : ℚ),
      cfg.circuitThreshold ≤ st.consecutiveFailures + 1 →
      record_failure cfg st now
        = { consecutiveFailures := st.consecutiveFailures + 1
          , circuitOpenUntil := some (now + cfg.circuitTimeout) })
    ∧ (∀ (cfg : ReqConfig) (method path : String) (st : ClientState) (d tEntry : ℚ)
         (attempts : ℕ → ℚ × Outcome),
      st.circuitOpenUntil = some d → tEntry < d →
      request cfg method path st tEntry attempts
        = (.error (circuitOpenError d tEntry), st, 0)) := by
  refine ⟨⟨rfl, rfl⟩, ?_, ?_⟩
  · intro cfg st now h
    simp only [record_failure]
    rw [if_pos h]
  · intro cfg method path st d tEntry attempts hopen hlt
    simp only [request, check_circuit, hopen]
    rw [if_pos hlt]

theorem circuit_open_short_circuits_witness :
    record_failure defaultConfig ⟨4, none⟩ 100
      = { consecutiveFailures := 5, circuitOpenUntil := some (100 + defaultConfig.circuitTimeout) }
    ∧ request defaultConfig "GET" "/projects" ⟨5, some 130⟩ 110 (fun _ => (110, .ok "x"))
      = (.error (circuitOpenError 130 110), ⟨5, some 130⟩, 0) :=
  ⟨circuit_open_short_circuits.2.1 defaultConfig ⟨4, none⟩ 100 (by decide),
   circuit_open_short_circuits.2.2 defaultConfig "GET" "/projects" ⟨5, some 130⟩ 130 110
     (fun _ => (110, .ok "x")) rfl (by norm_num)⟩

/-- Claim C5: with `max_retries = 3` and an admitted call, (a) a 502 on
every attempt issues exactly `1 + max_retries = 4` requests and raises a
`TurboAPIError` with status 502, whose agent message is the server-error
(≥ 500) repair hint; (b) 503 on the first two attempts and 200 on the third
returns the successful body after exactly three requests. -/
theorem http_retry_policy :
    ∀ (cfg : ReqConfig) (method path : String) (st st1 : ClientState) (tEntry : ℚ)
      (attempts : ℕ → ℚ × Outcome),
    cfg.maxRetries = 3 →
    check_circuit st tEntry = .ok st1 →
    ((∀ i, ∃ b, (attempts i).2 = .httpStatus 502 b) →
      (request cfg method path st tEntry attempts).2.2 = 1 + cfg.maxRetries
      ∧ ∃ e, (request cfg method path st tEntry attempts).1 = .error e
          ∧ e.statusCode = 502
          ∧ e.endpoint = method ++ " " ++ path
          ∧ 500 ≤ e.statusCode
          ∧ agent_message e
              = "Error: Turbo API server error on " ++ e.endpoint ++ " ("
                  ++ toString e.statusCode ++ "). Try: Wait a moment and retry.")
    ∧ (∀ (b0 b1 body : String),
        (attempts 0).2 = .httpStatus 503 b0 → (attempts 1).2 = .httpStatus 503 b1 →
        (attempts 2).2 = .ok body →
        (request cfg method path st tEntry attempts).1 = .ok body
        ∧ (request cfg method path st tEntry attempts).2.2 = 3) := by
  intro cfg method path st st1 tEntry attempts hm hcheck
  have hreq : request cfg method path st tEntry attempts
      = attemptLoop cfg method path attempts (cfg.maxRetries + 1) 0 st1 := by
    simp only [request, hcheck]
  constructor
  · intro hall
    obtain ⟨b0, h0⟩ := hall 0
    obtain ⟨b1, h1⟩ := hall 1
    obtain ⟨b2, h2⟩ := hall 2
    obtain ⟨b3, h3⟩ := hall 3
    rw [hreq, hm]
    rw [attemptLoop_retry_step cfg method path attempts 3 0 st1 502 b0 h0 (by decide)
          (by rw [hm]; omega)]
    rw [attemptLoop_retry_step cfg method path attempts 2 1 _ 502 b1 h1 (by decide)
          (by rw [hm]; omega)]
    rw [attemptLoop_retry_step cfg method path attempts 1 2 _ 502 b2 h2 (by decide)
          (by rw [hm]; omega)]
    rw [attemptLoop_httpfail_step cfg method path attempts 0 3 _ 502 b3 h3
          (by rw [hm]; omega)]
    exact ⟨by norm_num, _, rfl, rfl, rfl, by norm_num, rfl⟩
  · intro b0 b1 body h0 h1 h2
    rw [hreq, hm]
    rw [attemptLoop_retry_step cfg method path attempts 3 0 st1 503 b0 h0 (by decide)
          (by rw [hm]; omega)]
    rw [attemptLoop_retry_step cfg method path attempts 2 1 _ 503 b1 h1 (by decide)
          (by rw [hm]; omega)]
    rw [attemptLoop_ok_step cfg method path attempts 1 2 _ body h2]
    exact ⟨rfl, rfl⟩

/-- Transport oracle used by the C5 witness: 502 on every attempt. -/
def attempts502 : ℕ → ℚ × Outcome := fun i => ((i : ℚ), .httpStatus 502 "bad gateway")

theorem http_retry_policy_witness :
    (request defaultConfig "GET" "/projects" ⟨0, none⟩ 0 attempts502).2.2
        = 1 + defaultConfig.maxRetries
    ∧ ∃ e, (request defaultConfig "GET" "/projects" ⟨0, none⟩ 0 attempts502).1 = .error e
        ∧ e.statusCode = 502
        ∧ e.endpoint = "GET" ++ " " ++ "/projects"
        ∧ 500 ≤ e.statusCode
        ∧ agent_message e
            = "Error: Turbo API server error on " ++ e.endpoint ++ " ("
                ++ toString e.statusCode ++ "). Try: Wait a moment and retry." :=
  (http_retry_policy defaultConfig "GET" "/projects" ⟨0, none⟩ ⟨0, none⟩ 0 attempts502
      rfl rfl).1 (fun _ => ⟨"bad gateway", rfl⟩)

/-- Transport oracle of the C3 counterexample: a 404 (non-retryable) on
every attempt, at clock instant 101. -/
def probeAttempts404 : ℕ → ℚ × Outcome := fun _ => (101, .httpStatus 404 "missing")

/-- Claim C3 is false in its failure branch: with the default configuration,
a circuit opened until instant 100 admits a probe call at instant 101; the
probe fails (404), yet the circuit does NOT re-open — `_check_circuit` reset
the failure counter to 0 on entering half-open, so the failed probe leaves
the state at one consecutive failure with no deadline, and the next call at
instant 102 is admitted and issues a real request instead of being
short-circuited. -/
theorem circuit_probe_failure_leaves_circuit_closed :
    (request defaultConfig "GET" "/projects" ⟨5, some 100⟩ 101 probeAttempts404).2.1
      = ⟨1, none⟩
    ∧ (request defaultConfig "GET" "/projects" ⟨1, none⟩ 102 probeAttempts404).2.2 = 1 :=
  ⟨by decide, by decide⟩

/-- Claim C3, amended: after the recovery deadline has elapsed the very next
call is admitted as a probe with the failure counter reset to zero; if the
probe's first attempt succeeds the circuit closes with the counter reset;
but if the probe fails (non-retryably) the circuit does not re-open — the
counter restarts at 1, and the deadline is re-armed only once a full
`circuit_threshold` of consecutive failures accumulates again. -/
theorem circuit_half_open_probe :
    ∀ (cfg : ReqConfig) (method path : String) (st : ClientState) (d tEntry : ℚ)
      (attempts : ℕ → ℚ × Outcome),
    st.circuitOpenUntil = some d → d ≤ tEntry →
    (request cfg method path st tEntry attempts
        = attemptLoop cfg method path attempts (cfg.maxRetries + 1) 0 ⟨0, none⟩)
    ∧ (∀ body, (attempts 0).2 = .ok body →
        request cfg method path st tEntry attempts = (.ok body, ⟨0, none⟩, 1))
    ∧ (∀ code b, (attempts 0).2 = .httpStatus code b → code ∉ retryableStatusCodes →
        2 ≤ cfg.circuitThreshold →
        (request cfg method path st tEntry attempts).2.1 = ⟨1, none⟩) := by
  intro cfg method path st d tEntry attempts hopen hle
  have hreq : request cfg method path st tEntry attempts
      = attemptLoop cfg method path attempts (cfg.maxRetries + 1) 0 ⟨0, none⟩ := by
    simp only [request, check_circuit, hopen]
    rw [if_neg (by exact not_lt.mpr hle)]
  refine ⟨hreq, ?_, ?_⟩
  · intro body h0
    rw [hreq, attemptLoop_ok_step cfg method path attempts cfg.maxRetries 0 _ body h0]
    rfl
  · intro code b h0 hcode hthr
    rw [hreq, attemptLoop_httpfail_step cfg method path attempts cfg.maxRetries 0 _ code b h0
          (by intro hc; exact hcode hc.1)]
    show record_failure cfg ⟨0, none⟩ (attempts 0).1 = ⟨1, none⟩
    simp only [record_failure]
    rw [if_neg (by omega)]

theorem circuit_half_open_probe_witness :
    request defaultConfig "GET" "/projects" ⟨5, some 100⟩ 101 (fun _ => (101, .ok "ok"))
      = (.ok "ok", ⟨0, none⟩, 1)
    ∧ (request defaultConfig "GET" "/projects" ⟨5, some 100⟩ 101 probeAttempts404).2.1
        = ⟨1, none⟩ :=
  ⟨(circuit_half_open_probe defaultConfig "GET" "/projects" ⟨5, some 100⟩ 100 101
      (fun _ => (101, .ok "ok")) rfl (by norm_num)).2.1 "ok" rfl,
   (circuit_half_open_probe defaultConfig "GET" "/projects" ⟨5, some 100⟩ 100 101
      probeAttempts404 rfl (by norm_num)).2.2 404 "missing" rfl (by decide) (by decide)⟩

/-- Transport oracle for circuit-open calls; never consulted because the
call is short-circuited before the first attempt. -/
def unusedAttempts : ℕ → ℚ × Outcome := fun _ => (0, .ok "unused")

theorem agent_message_circuit_open (e : TurboAPIError) (h1 : e.statusCode = 0)
    (h2 : e.endpoint = "(circuit breaker)") (h3 : e.body = "") :
    agent_message e = "Error: (circuit breaker) returned 0. Details: " := by
  simp only [agent_message, h1, h2, h3]
  rw [if_neg (by decide), if_neg (by decide), if_neg (by decide), if_neg (by decide)]
  decide

/-- Claim C6 is false as stated: a tool call short-circuited by the open
breaker (deadline 100, call at instant 70, 30 s remaining) produces through
`_safe_call` the error-flagged text built by the generic final branch of
`agent_message` — status code 0 and endpoint "(circuit breaker)" match none
of the specific branches — not the "Circuit breaker open." message, which
only lives in the exception's `str()`. -/
theorem circuit_open_tool_text_counterexample :
    safe_call (request defaultConfig "GET" "/projects" ⟨5, some 100⟩ 70 unusedAttempts).1
      = errorResponse "Error: (circuit breaker) returned 0. Details: "
    ∧ (safe_call (request defaultConfig "GET" "/projects" ⟨5, some 100⟩ 70 unusedAttempts).1).text
        ≠ "Circuit breaker open. API calls paused for 30s."
    ∧ (circuitOpenError 100 70).message
        = "Circuit breaker open. API calls paused for 30s." := by
  refine ⟨by decide, by decide, ?_⟩
  simp only [circuitOpenError]
  rw [show (100 : ℚ) - 70 = 30 by norm_num]
  decide

/-- Claim C6, amended: when a tool's HTTP call is short-circuited by the
open breaker, the error-flagged tool result text is
"Error: (circuit breaker) returned 0. Details: " (the generic fallback of
`agent_message`); the text "Circuit breaker open. API calls paused for
<remaining>s." is only the raised exception's message and is not returned
to the agent. -/
theorem circuit_open_tool_text :
    ∀ (cfg : ReqConfig) (method path : String) (st : ClientState) (d tEntry : ℚ)
      (attempts : ℕ → ℚ × Outcome),
    st.circuitOpenUntil = some d → tEntry < d →
    safe_call (request cfg method path st tEntry attempts).1
        = errorResponse "Error: (circuit breaker) returned 0. Details: "
    ∧ (circuitOpenError d tEntry).message
        = "Circuit breaker open. API calls paused for "
            ++ formatDotZeroF (pyMax 0 (d - tEntry)) ++ "s." := by
  intro cfg method path st d tEntry attempts hopen hlt
  constructor
  · have hreq : request cfg method path st tEntry attempts
        = (.error (circuitOpenError d tEntry), st, 0) := by
      simp only [request, check_circuit, hopen]
      rw [if_pos hlt]
    rw [hreq]
    show safe_call (.error (circuitOpenError d tEntry)) = _
    simp only [safe_call]
    rw [agent_message_circuit_open (circuitOpenError d tEntry) rfl rfl rfl]
  · rfl

theorem circuit_open_tool_text_witness :
    safe_call (request defaultConfig "GET" "/issues" ⟨5, some 100⟩ 85 unusedAttempts).1
        = errorResponse "Error: (circuit breaker) returned 0. Details: "
    ∧ (circuitOpenError 100 85).message
        = "Circuit breaker open. API calls paused for "
            ++ formatDotZeroF (pyMax 0 (100 - 85)) ++ "s." :=
  circuit_open_tool_text defaultConfig "GET" "/issues" ⟨5, some 100⟩ 100 85 unusedAttempts
    rfl (by norm_num)

/-! ## Rate limiting (`hooks.py`, `rate_limit_tool_calls`) -/

/-- Default of `MAX_CALLS_PER_MINUTE` (`TURBO_AGENT_RATE_LIMIT` unset). -/
def MAX_CALLS_PER_MINUTE : ℕ := 30

/-- One invocation of the rate-limit hook: the tool name, the
`time.monotonic()` instant, and `input_data.get("hook_event_name",
"PreToolUse")`. -/
structure RLEvent where
  tool : String
  time : ℚ
  eventName : String
deriving DecidableEq, Repr

/-- The pruning loop `while timestamps and now - timestamps[0] > 60:
timestamps.popleft()`. -/
def pruneWindow (now : ℚ) : List ℚ → List ℚ
  | [] => []
  | u :: rest => if 60 < now - u then pruneWindow now rest else u :: rest

/-- The deny reason built by the rate-limit hook. -/
def rateLimitReason (toolName : String) (count maxN : ℕ) : String :=
  "Rate limit exceeded: " ++ toolName ++ " called " ++ toString count
    ++ " times in the last minute (max " ++ toString maxN ++ "). Wait before retrying."

/-- Embedding of `rate_limit_tool_calls` (hooks.py lines 306-341) as one
atomic step (the body runs under `_rate_lock`). The state is the
`_call_timestamps` dict as a total function with default `[]` (a missing
tool name gets a fresh empty deque). The deque's `maxlen` of
`MAX_CALLS_PER_MINUTE + 10` is not modelled: appends happen only when the
pruned length is below `maxN`, so the length never exceeds `maxN` and the
`maxlen` eviction can never fire. On deny the pruned window is stored back
and nothing is appended; on admission the current instant is appended. -/
def rate_limit_tool_calls (maxN : ℕ) (st : String → List ℚ) (ev : RLEvent) :
    HookDecision × (String → List ℚ) :=
  let timestamps := pruneWindow ev.time (st ev.tool)
  if maxN ≤ timestamps.length then
    (.deny (rateLimitReason ev.tool timestamps.length maxN) ev.eventName,
     fun g => if g = ev.tool then timestamps else st g)
  else
    (.allow, fun g => if g = ev.tool then timestamps ++ [ev.time] else st g)

/-- The initial `_call_timestamps` dict: every window empty. -/
def emptyWindows : String → List ℚ := fun _ => []

/-- A run of the rate-limit hook over a trace of invocations: the decisions
paired with their events, and the final window state. -/
def rateLimitRun (maxN : ℕ) (st : String → List ℚ) :
    List RLEvent → List (RLEvent × HookDecision) × (String → List ℚ)
  | [] => ([], st)
  | ev :: rest =>
    let step := rate_limit_tool_calls maxN st ev
    let next := rateLimitRun maxN step.2 rest
    ((ev, step.1) :: next.1, next.2)

/-- The instants of the admitted calls for tool `g`, in trace order. -/
def admittedTimes (g : String) (out : List (RLEvent × HookDecision)) : List ℚ :=
  out.filterMap (fun p => if p.1.tool = g ∧ p.2 = .allow then some p.1.time else none)

/-! ## Theorems about the rate limiter (claims C8 and C10) -/

theorem pruneWindow_split (now : ℚ) (ts : List ℚ) :
    ∃ removed, ts = removed ++ pruneWindow now ts ∧ ∀ u ∈ removed, 60 < now - u := by
  induction ts with
  | nil => exact ⟨[], rfl, by simp⟩
  | cons u rest ih =>
    by_cases h : 60 < now - u
    · obtain ⟨removed, hsplit, hold⟩ := ih
      refine ⟨u :: removed, ?_, ?_⟩
      · simp only [pruneWindow]
        rw [if_pos h, List.cons_append, ← hsplit]
      · intro v hv
        rcases List.mem_cons.mp hv with rfl | hv
        · exact h
        · exact hold v hv
    · refine ⟨[], ?_, by simp⟩
      simp only [pruneWindow]
      rw [if_neg h, List.nil_append]

theorem pruneWindow_isSuffix (now : ℚ) (ts : List ℚ) : pruneWindow now ts <:+ ts := by
  obtain ⟨removed, hsplit, _⟩ := pruneWindow_split now ts
  exact ⟨removed, hsplit.symm⟩

theorem isSuffix_append_right {α} {l m : List α} (k : List α) (h : l <:+ m) :
    l ++ k <:+ m ++ k := by
  obtain ⟨u, hu⟩ := h
  exact ⟨u, by rw [← hu, List.append_assoc]⟩

/-- Claim C10: a call denied by the rate limiter appends nothing — the
denied tool's stored window is exactly the pruned window; and over any run
from the initial state, every tool's final window is a suffix of the list of
that tool's admitted instants, so only admitted calls ever occupy a window. -/
theorem rate_limit_denied_no_append :
    (∀ (maxN : ℕ) (st : String → List ℚ) (ev : RLEvent) (r evn : String),
      (rate_limit_tool_calls maxN st ev).1 = .deny r evn →
      (rate_limit_tool_calls maxN st ev).2 ev.tool = pruneWindow ev.time (st ev.tool))
    ∧ (∀ (maxN : ℕ) (tr : List RLEvent) (g : String),
      (rateLimitRun maxN emptyWindows tr).2 g
        <:+ admittedTimes g (rateLimitRun maxN emptyWindows tr).1) := by
  constructor
  · intro maxN st ev r evn hdeny
    simp only [rate_limit_tool_calls] at hdeny ⊢
    by_cases h : maxN ≤ (pruneWindow ev.time (st ev.tool)).length
    · rw [if_pos h]
      simp
    · rw [if_neg h] at hdeny
      exact absurd hdeny (by simp)
  · intro maxN tr g
    suffices h : ∀ (tr : List RLEvent) (st : String → List ℚ) (A₀ : List ℚ),
        st g <:+ A₀ →
        (rateLimitRun maxN st tr).2 g
          <:+ A₀ ++ admittedTimes g (rateLimitRun maxN st tr).1 by
      have := h tr emptyWindows [] ⟨[], rfl⟩
      rwa [List.nil_append] at this
    intro tr
    induction tr with
    | nil =>
      intro st A₀ hsuf
      simpa [rateLimitRun, admittedTimes] using hsuf
    | cons ev rest ih =>
      intro st A₀ hsuf
      simp only [rateLimitRun, admittedTimes, List.filterMap_cons]
      have hpr : pruneWindow ev.time (st ev.tool) <:+ st ev.tool :=
        pruneWindow_isSuffix ev.time (st ev.tool)
      by_cases hg : ev.tool = g
      · subst hg
        by_cases hfull : maxN ≤ (pruneWindow ev.time (st ev.tool)).length
        · have hstep : rate_limit_tool_calls maxN st ev
              = (.deny (rateLimitReason ev.tool
                    (pruneWindow ev.time (st ev.tool)).length maxN) ev.eventName,
                 fun g' => if g' = ev.tool then pruneWindow ev.time (st ev.tool) else st g') := by
            simp only [rate_limit_tool_calls]
            rw [if_pos hfull]
          rw [hstep]
          simp only [if_pos rfl, and_true, reduceCtorEq, and_false, if_false]
          have hsuf' : (fun g' => if g' = ev.tool then pruneWindow ev.time (st ev.tool)
              else st g') ev.tool <:+ A₀ := by
            simp only [if_pos rfl]
            exact hpr.trans hsuf
          exact ih (fun g' => if g' = ev.tool then
              pruneWindow ev.time (st ev.tool) else st g') A₀ hsuf'
        · have hstep : rate_limit_tool_calls maxN st ev
              = (.allow,
                 fun g' => if g' = ev.tool then
                   pruneWindow ev.time (st ev.tool) ++ [ev.time] else st g') := by
            simp only [rate_limit_tool_calls]
            rw [if_neg hfull]
          rw [hstep]
          simp only [if_pos rfl, and_true, and_self, if_true]
          have hsuf' : (fun g' => if g' = ev.tool then
              pruneWindow ev.time (st ev.tool) ++ [ev.time] else st g') ev.tool
              <:+ A₀ ++ [ev.time] := by
            simp only [if_pos rfl]
            exact isSuffix_append_right [ev.time] (hpr.trans hsuf)
          have := ih (fun g' => if g' = ev.tool then
              pruneWindow ev.time (st ev.tool) ++ [ev.time] else st g')
            (A₀ ++ [ev.time]) hsuf'
          rwa [List.append_assoc, List.singleton_append] at this
      · have hstg : (rate_limit_tool_calls maxN st ev).2 g = st g := by
          simp only [rate_limit_tool_calls]
          by_cases hfull : maxN ≤ (pruneWindow ev.time (st ev.tool)).length
          · rw [if_pos hfull]
            exact if_neg (fun h => hg h.symm)
          · rw [if_neg hfull]
            exact if_neg (fun h => hg h.symm)
        have hcond : ¬((ev, (rate_limit_tool_calls maxN st ev).1).1.tool = g
            ∧ (ev, (rate_limit_tool_calls maxN st ev).1).2 = HookDecision.allow) := by
          intro hc
          exact hg hc.1
        rw [if_neg hcond]
        exact ih _ A₀ (by rw [hstg]; exact hsuf)

theorem rate_limit_denied_no_append_witness :
    (rate_limit_tool_calls 0 emptyWindows ⟨"tool_a", 5, "PreToolUse"⟩).2 "tool_a"
      = pruneWindow 5 (emptyWindows "tool_a") :=
  rate_limit_denied_no_append.1 0 emptyWindows ⟨"tool_a", 5, "PreToolUse"⟩
    (rateLimitReason "tool_a" 0 0) "PreToolUse" (by decide)

/-- Admission record of a list of instants: before each entry, fewer than
`N` of the earlier entries lie within the preceding 60 seconds. This is
exactly what the rate-limit check establishes at each admitted call. -/
def WindowOK (N : ℕ) (A : List ℚ) : Prop :=
  ∀ B s C, A = B ++ s :: C → ((B.filter (fun u => decide (s - u ≤ 60))).length) < N

theorem windowOK_nil (N : ℕ) : WindowOK N [] := by
  intro B s C h
  exact absurd h (by simp)

theorem split_of_append_singleton {α} (B : List α) (s : α) (C X : List α) (y : α)
    (h : B ++ s :: C = X ++ [y]) :
    (C = [] ∧ B = X ∧ s = y) ∨ ∃ C', C = C' ++ [y] ∧ X = B ++ s :: C' := by
  rcases C.eq_nil_or_concat with rfl | ⟨C', c, rfl⟩
  · obtain ⟨hBX, hsy⟩ := List.append_inj' h rfl
    exact Or.inl ⟨rfl, hBX, (List.cons.injEq s [] y []).mp hsy |>.1⟩
  · rw [List.concat_eq_append] at h ⊢
    rw [show B ++ s :: (C' ++ [c]) = (B ++ s :: C') ++ [c] by simp] at h
    obtain ⟨hX, hcy⟩ := List.append_inj' h rfl
    have : c = y := ((List.cons.injEq c [] y []).mp hcy).1
    exact Or.inr ⟨C', by rw [this], hX.symm⟩

theorem windowOK_snoc_of (N : ℕ) (A : List ℚ) (t : ℚ) (h1 : WindowOK N A)
    (h2 : (A.filter (fun u => decide (t - u ≤ 60))).length < N) :
    WindowOK N (A ++ [t]) := by
  intro B s C h
  rcases split_of_append_singleton B s C A t h.symm with ⟨_, rfl, rfl⟩ | ⟨C', _, hA⟩
  · exact h2
  · exact h1 B s C' hA

theorem filter_length_mono {α} (p q : α → Bool) (l : List α)
    (h : ∀ a ∈ l, p a = true → q a = true) :
    (l.filter p).length ≤ (l.filter q).length := by
  induction l with
  | nil => simp
  | cons a l ih =>
    have ih' := ih (fun b hb => h b (List.mem_cons_of_mem a hb))
    by_cases hp : p a = true
    · rw [List.filter_cons_of_pos hp, List.filter_cons_of_pos (h a (List.mem_cons_self a l) hp)]
      simpa using ih'
    · rw [List.filter_cons_of_neg (by simpa using hp)]
      by_cases hq : q a = true
      · rw [List.filter_cons_of_pos hq]
        exact ih'.trans (by simp)
      · rw [List.filter_cons_of_neg (by simpa using hq)]
        exact ih'

/-- From the admission record and sortedness: any closed 60-second interval
`[t - 60, t]` holds at most `N` of the instants. -/
theorem windowOK_count_le (N : ℕ) (A : List ℚ) (hsort : List.Pairwise (· ≤ ·) A)
    (hok : WindowOK N A) (t : ℚ) :
    (A.filter (fun s => decide (t - 60 ≤ s ∧ s ≤ t))).length ≤ N := by
  induction A using List.reverseRecOn with
  | nil => simp
  | append_singleton B y ih =>
    have hsortB : List.Pairwise (· ≤ ·) B :=
      hsort.sublist (List.sublist_append_left B [y])
    have hBy : ∀ b ∈ B, b ≤ y := by
      have := (List.pairwise_append.mp hsort).2.2
      intro b hb
      exact this b hb y (List.mem_singleton_self y)
    have hokB : WindowOK N B := by
      intro B' s C' hB
      exact hok B' s (C' ++ [y]) (by rw [hB]; simp)
    have hlast : ((B.filter (fun u => decide (y - u ≤ 60))).length) < N :=
      hok B y [] rfl
    rw [List.filter_append]
    by_cases hy : (t - 60 ≤ y ∧ y ≤ t)
    · rw [List.filter_cons_of_pos (by simpa using hy), List.filter_nil]
      have hmono : (B.filter (fun s => decide (t - 60 ≤ s ∧ s ≤ t))).length
          ≤ (B.filter (fun u => decide (y - u ≤ 60))).length := by
        apply filter_length_mono
        intro a _ ha
        have ha' : t - 60 ≤ a ∧ a ≤ t := by simpa using ha
        have : y - a ≤ 60 := by
          have h1 : t - 60 ≤ a := ha'.1
          have h2 : y ≤ t := hy.2
          linarith
        simpa using this
      have : (B.filter (fun s => decide (t - 60 ≤ s ∧ s ≤ t))).length + 1 ≤ N :=
        Nat.succ_le_of_lt (Nat.lt_of_le_of_lt hmono hlast)
      simpa using this
    · rw [List.filter_cons_of_neg (by simpa using hy), List.filter_nil, List.append_nil]
      exact ih hsortB hokB

theorem pruneWindow_eq_filter (now : ℚ) (ts : List ℚ)
    (hsort : List.Pairwise (· ≤ ·) ts) :
    pruneWindow now ts = ts.filter (fun u => decide (now - u ≤ 60)) := by
  induction ts with
  | nil => rfl
  | cons u rest ih =>
    have hrest : List.Pairwise (· ≤ ·) rest := (List.pairwise_cons.mp hsort).2
    have hur : ∀ v ∈ rest, u ≤ v := (List.pairwise_cons.mp hsort).1
    by_cases h : 60 < now - u
    · simp only [pruneWindow]
      rw [if_pos h, ih hrest, List.filter_cons_of_neg (by simp; linarith)]
    · simp only [pruneWindow]
      rw [if_neg h, List.filter_cons_of_pos (by simp; linarith [not_lt.mp h])]
      have : rest.filter (fun u => decide (now - u ≤ 60)) = rest := by
        apply List.filter_eq_self.mpr
        intro v hv
        have h1 := hur v hv
        have h2 := not_lt.mp h
        simp only [decide_eq_true_eq]
        linarith
      rw [this]

/-- The run invariant behind the rolling-window bound: starting from a state
whose `g`-window is a recent suffix of the admission history `A₀`, the
admission history extended by the run keeps the admission record
(`WindowOK`) and stays sorted. -/
theorem rl_run_invariant (maxN : ℕ) (g : String) (tr : List RLEvent) :
    ∀ (st : String → List ℚ) (A₀ : List ℚ) (tLo : ℚ),
    List.Pairwise (fun a b : RLEvent => a.time ≤ b.time) tr →
    (∀ e ∈ tr, tLo ≤ e.time) →
    List.Pairwise (· ≤ ·) A₀ →
    (∀ s ∈ A₀, s ≤ tLo) →
    (∃ dropped, A₀ = dropped ++ st g ∧ ∀ s ∈ dropped, 60 < tLo - s) →
    WindowOK maxN A₀ →
    WindowOK maxN (A₀ ++ admittedTimes g (rateLimitRun maxN st tr).1)
    ∧ List.Pairwise (· ≤ ·) (A₀ ++ admittedTimes g (rateLimitRun maxN st tr).1) := by
  induction tr with
  | nil =>
    intro st A₀ tLo _ _ hA _ _ hok
    constructor
    · simpa [rateLimitRun, admittedTimes] using hok
    · simpa [rateLimitRun, admittedTimes] using hA
  | cons ev rest ih =>
    intro st A₀ tLo htr hlo hA hub hsplit hok
    obtain ⟨dropped, hAeq, hdold⟩ := hsplit
    have htlo_ev : tLo ≤ ev.time := hlo ev (List.mem_cons_self ev rest)
    have htr' : List.Pairwise (fun a b : RLEvent => a.time ≤ b.time) rest :=
      (List.pairwise_cons.mp htr).2
    have hlo' : ∀ e ∈ rest, ev.time ≤ e.time := (List.pairwise_cons.mp htr).1
    have hstg_sorted : List.Pairwise (· ≤ ·) (st g) :=
      hA.sublist (List.IsSuffix.sublist ⟨dropped, hAeq.symm⟩)
    simp only [rateLimitRun, admittedTimes, List.filterMap_cons]
    by_cases hg : ev.tool = g
    · subst hg
      obtain ⟨removed, hremeq, hremold⟩ := pruneWindow_split ev.time (st ev.tool)
      have hfilterA : A₀.filter (fun u => decide (ev.time - u ≤ 60))
          = pruneWindow ev.time (st ev.tool) := by
        rw [hAeq, List.filter_append]
        have hdrop_nil : dropped.filter (fun u => decide (ev.time - u ≤ 60)) = [] := by
          rw [List.filter_eq_nil_iff]
          intro u hu
          have := hdold u hu
          simp only [decide_eq_true_eq]
          intro hc
          linarith
        rw [hdrop_nil, List.nil_append, pruneWindow_eq_filter _ _ hstg_sorted]
      have hub' : ∀ s ∈ A₀, s ≤ ev.time := fun s hs => le_trans (hub s hs) htlo_ev
      by_cases hfull : maxN ≤ (pruneWindow ev.time (st ev.tool)).length
      · have hstep : rate_limit_tool_calls maxN st ev
            = (.deny (rateLimitReason ev.tool
                  (pruneWindow ev.time (st ev.tool)).length maxN) ev.eventName,
               fun g' => if g' = ev.tool then pruneWindow ev.time (st ev.tool) else st g') := by
          simp only [rate_limit_tool_calls]
          rw [if_pos hfull]
        rw [hstep]
        simp only [if_pos rfl, and_true, reduceCtorEq, and_false, if_false]
        apply ih (fun g' => if g' = ev.tool then pruneWindow ev.time (st ev.tool) else st g')
          A₀ ev.time htr' hlo' hA hub' ?_ hok
        refine ⟨dropped ++ removed, ?_, ?_⟩
        · simp only [if_pos rfl]
          conv_lhs => rw [hAeq, hremeq]
          rw [List.append_assoc]
          simp
        · intro s hs
          rcases List.mem_append.mp hs with hs | hs
          · have := hdold s hs
            linarith
          · exact hremold s hs
      · have hstep : rate_limit_tool_calls maxN st ev
            = (.allow,
               fun g' => if g' = ev.tool then
                 pruneWindow ev.time (st ev.tool) ++ [ev.time] else st g') := by
          simp only [rate_limit_tool_calls]
          rw [if_neg hfull]
        rw [hstep]
        simp only [if_pos rfl, and_true, and_self, if_true]
        have hgoal := ih (fun g' => if g' = ev.tool then
              pruneWindow ev.time (st ev.tool) ++ [ev.time] else st g')
            (A₀ ++ [ev.time]) ev.time htr' hlo' ?ha ?hb ?hc ?hd
        case ha =>
          rw [List.pairwise_append]
          refine ⟨hA, List.pairwise_singleton _ _, ?_⟩
          intro a ha b hb
          rw [List.mem_singleton.mp hb]
          exact hub' a ha
        case hb =>
          intro s hs
          rcases List.mem_append.mp hs with hs | hs
          · exact hub' s hs
          · rw [List.mem_singleton.mp hs]
        case hc =>
          refine ⟨dropped ++ removed, ?_, ?_⟩
          · simp only [if_pos rfl]
            conv_lhs => rw [hAeq, hremeq]
            simp only [List.append_assoc]
            simp
          · intro s hs
            rcases List.mem_append.mp hs with hs | hs
            · have := hdold s hs
              linarith
            · exact hremold s hs
        case hd =>
          exact windowOK_snoc_of maxN A₀ ev.time hok (by rw [hfilterA]; exact not_le.mp hfull)
        rw [List.append_assoc, List.singleton_append] at hgoal
        exact hgoal
    · have hstg : (rate_limit_tool_calls maxN st ev).2 g = st g := by
        simp only [rate_limit_tool_calls]
        by_cases hfull : maxN ≤ (pruneWindow ev.time (st ev.tool)).length
        · rw [if_pos hfull]
          exact if_neg (fun h => hg h.symm)
        · rw [if_neg hfull]
          exact if_neg (fun h => hg h.symm)
      have hcond : ¬((ev, (rate_limit_tool_calls maxN st ev).1).1.tool = g
          ∧ (ev, (rate_limit_tool_calls maxN st ev).1).2 = HookDecision.allow) := by
        intro hc
        exact hg hc.1
      rw [if_neg hcond]
      apply ih ((rate_limit_tool_calls maxN st ev).2) A₀ ev.time htr' hlo' hA
        (fun s hs => le_trans (hub s hs) htlo_ev) ?_ hok
      refine ⟨dropped, by rw [hstg]; exact hAeq, ?_⟩
      intro s hs
      have := hdold s hs
      linarith

theorem rate_limit_step_other (maxN : ℕ) (st : String → List ℚ) (ev : RLEvent)
    (g : String) (hg : ev.tool ≠ g) :
    (rate_limit_tool_calls maxN st ev).2 g = st g := by
  simp only [rate_limit_tool_calls]
  by_cases hfull : maxN ≤ (pruneWindow ev.time (st ev.tool)).length
  · rw [if_pos hfull]
    exact if_neg (fun h => hg h.symm)
  · rw [if_neg hfull]
    exact if_neg (fun h => hg h.symm)

theorem rate_limit_step_congr (maxN : ℕ) (st st' : String → List ℚ) (ev : RLEvent)
    (h : st ev.tool = st' ev.tool) :
    (rate_limit_tool_calls maxN st ev).1 = (rate_limit_tool_calls maxN st' ev).1
    ∧ (rate_limit_tool_calls maxN st ev).2 ev.tool
        = (rate_limit_tool_calls maxN st' ev).2 ev.tool := by
  simp only [rate_limit_tool_calls, h]
  by_cases hfull : maxN ≤ (pruneWindow ev.time (st' ev.tool)).length
  · rw [if_pos hfull, if_pos hfull]
    exact ⟨rfl, by simp⟩
  · rw [if_neg hfull, if_neg hfull]
    exact ⟨rfl, by simp⟩

/-- Windows for different tool names are independent: the decisions and the
final `g`-window obtained by running a trace equal those of the trace
restricted to the events for `g`, whenever the initial `g`-windows agree. -/
theorem rl_run_filter (maxN : ℕ) (g : String) (tr : List RLEvent) :
    ∀ (st st' : String → List ℚ), st g = st' g →
    ((rateLimitRun maxN st tr).1.filter (fun p => p.1.tool == g))
      = (rateLimitRun maxN st' (tr.filter (fun e => e.tool == g))).1
    ∧ (rateLimitRun maxN st tr).2 g
      = (rateLimitRun maxN st' (tr.filter (fun e => e.tool == g))).2 g := by
  induction tr with
  | nil =>
    intro st st' h
    exact ⟨rfl, h⟩
  | cons ev rest ih =>
    intro st st' h
    simp only [rateLimitRun, List.filter_cons]
    by_cases hg : ev.tool = g
    · subst hg
      have hsame : st ev.tool = st' ev.tool := h
      obtain ⟨hd, hw⟩ := rate_limit_step_congr maxN st st' ev hsame
      obtain ⟨ih1, ih2⟩ := ih (rate_limit_tool_calls maxN st ev).2
        (rate_limit_tool_calls maxN st' ev).2 hw
      rw [if_pos (by simp), if_pos (by simp)]
      constructor
      · simp only [rateLimitRun]
        rw [hd, ih1]
      · simp only [rateLimitRun]
        exact ih2
    · have hstg := rate_limit_step_other maxN st ev g hg
      obtain ⟨ih1, ih2⟩ := ih (rate_limit_tool_calls maxN st ev).2 st'
        (by rw [hstg]; exact h)
      rw [if_neg (by simp [hg]), if_neg (by simp [hg])]
      exact ⟨ih1, ih2⟩

theorem data_prefix_append (p r s : String) (h : ∃ q, p.data = s.data ++ q) :
    ∃ q, (p ++ r).data = s.data ++ q := by
  obtain ⟨q, hq⟩ := h
  exact ⟨q ++ r.data, by rw [str_data_append, hq, List.append_assoc]⟩

theorem rateLimitReason_contains (toolName : String) (count maxN : ℕ) :
    strContains (rateLimitReason toolName count maxN) "Rate limit" := by
  have base : ∃ q, ("Rate limit exceeded: ").data = ("Rate limit").data ++ q :=
    ⟨(" exceeded: ").data, by decide⟩
  have h1 := data_prefix_append _ toolName _ base
  have h2 := data_prefix_append _ " called " _ h1
  have h3 := data_prefix_append _ (toString count) _ h2
  have h4 := data_prefix_append _ " times in the last minute (max " _ h3
  have h5 := data_prefix_append _ (toString maxN) _ h4
  have h6 := data_prefix_append _ "). Wait before retrying." _ h5
  obtain ⟨q, hq⟩ := h6
  exact ⟨[], q, by rw [List.nil_append]; exact hq⟩

/-- Claim C8: (bound) over any monotonic trace run from the initial state,
every tool name sees at most `N` admitted calls inside any closed 60-second
interval of the monotonic clock; (denial) a call arriving when the pruned
window already holds at least `N` entries is denied, with a reason
containing "Rate limit"; (independence) the decisions on a tool's calls and
its final window are those of the trace restricted to that tool alone. -/
theorem rate_limit_window_bound :
    (∀ (maxN : ℕ) (tr : List RLEvent) (g : String) (t : ℚ),
      List.Pairwise (fun a b : RLEvent => a.time ≤ b.time) tr →
      ((admittedTimes g (rateLimitRun maxN emptyWindows tr).1).filter
          (fun s => decide (t - 60 ≤ s ∧ s ≤ t))).length ≤ maxN)
    ∧ (∀ (maxN : ℕ) (st : String → List ℚ) (ev : RLEvent),
      maxN ≤ (pruneWindow ev.time (st ev.tool)).length →
      (rate_limit_tool_calls maxN st ev).1
        = .deny (rateLimitReason ev.tool (pruneWindow ev.time (st ev.tool)).length maxN)
            ev.eventName
      ∧ strContains (rateLimitReason ev.tool (pruneWindow ev.time (st ev.tool)).length maxN)
          "Rate limit")
    ∧ (∀ (maxN : ℕ) (tr : List RLEvent) (g : String),
      ((rateLimitRun maxN emptyWindows tr).1.filter (fun p => p.1.tool == g))
        = (rateLimitRun maxN emptyWindows (tr.filter (fun e => e.tool == g))).1) := by
  refine ⟨?_, ?_, ?_⟩
  · intro maxN tr g t htr
    cases tr with
    | nil => simp [rateLimitRun, admittedTimes]
    | cons ev rest =>
      have hlo : ∀ e ∈ ev :: rest, ev.time ≤ e.time := by
        intro e he
        rcases List.mem_cons.mp he with rfl | he
        · exact le_refl _
        · exact (List.pairwise_cons.mp htr).1 e he
      obtain ⟨hok, hsort⟩ := rl_run_invariant maxN g (ev :: rest) emptyWindows [] ev.time
        htr hlo List.Pairwise.nil (by simp) ⟨[], rfl, by simp⟩ (windowOK_nil maxN)
      rw [List.nil_append] at hok hsort
      exact windowOK_count_le maxN _ hsort hok t
  · intro maxN st ev hfull
    constructor
    · simp only [rate_limit_tool_calls]
      rw [if_pos hfull]
    · exact rateLimitReason_contains ev.tool _ maxN
  · intro maxN tr g
    exact (rl_run_filter maxN g tr emptyWindows emptyWindows rfl).1

theorem rate_limit_window_bound_witness :
    (rate_limit_tool_calls 0 emptyWindows ⟨"tool_b", 7, "PreToolUse"⟩).1
      = .deny (rateLimitReason "tool_b" 0 0) "PreToolUse"
    ∧ strContains (rateLimitReason "tool_b" 0 0) "Rate limit" :=
  rate_limit_window_bound.2.1 0 emptyWindows ⟨"tool_b", 7, "PreToolUse"⟩ (by decide)

/-! ## Tool catalog (`tools.py`): input models, validation, handlers -/

/-- Union of the typed argument fields accepted by the tool input models.
A `none` field is an absent key. Values arrive already carrying the type the
model expects; pydantic coercion of mistyped values is not modelled, so
validation failure here means a missing required field or a constraint
violation of the schema. -/
structure ToolArgs where
  project_id : Option String := none
  issue_id : Option String := none
  title : Option String := none
  description : Option String := none
  type : Option String := none
  priority : Option String := none
  status : Option String := none
  limit : Option ℤ := none
  summary : Option String := none
  hours : Option ℚ := none
  entity_type : Option String := none
  entity_id : Option String := none
  content : Option String := none
  decision_type : Option String := none
  rationale : Option String := none
deriving DecidableEq, Repr

/-- Constraints of `ListProjectsInput`: optional status; limit in 1..100. -/
def ListProjectsInputValid (a : ToolArgs) : Bool :=
  match a.limit with
  | none => true
  | some n => decide (1 ≤ n) && decide (n ≤ 100)

/-- Constraints of `ProjectIdInput`: project_id required, min length 1. -/
def ProjectIdInputValid (a : ToolArgs) : Bool :=
  match a.project_id with
  | none => false
  | some p => decide (1 ≤ p.length)

/-- Constraints of `ProjectIssuesInput`: project_id required, min length 1;
status optional. -/
def ProjectIssuesInputValid (a : ToolArgs) : Bool :=
  match a.project_id with
  | none => false
  | some p => decide (1 ≤ p.length)

/-- Constraints of `ListIssuesInput`: all optional; limit in 1..100. -/
def ListIssuesInputValid (a : ToolArgs) : Bool :=
  match a.limit with
  | none => true
  | some n => decide (1 ≤ n) && decide (n ≤ 100)

/-- Constraints of `IssueIdInput`: issue_id required, min length 1. -/
def IssueIdInputValid (a : ToolArgs) : Bool :=
  match a.issue_id with
  | none => false
  | some i => decide (1 ≤ i.length)

/-- Constraints of `CreateIssueInput`. -/
def CreateIssueInputValid (a : ToolArgs) : Bool :=
  (match a.project_id with
   | none => false
   | some p => decide (1 ≤ p.length))
  && (match a.title with
      | none => false
      | some t => decide (1 ≤ t.length) && decide (t.length ≤ 500))
  && (match a.type with
      | none => true
      | some ty => decide (ty ∈ ["task", "bug", "feature", "improvement"]))
  && (match a.priority with
      | none => true
      | some pr => decide (pr ∈ ["critical", "high", "medium", "low"]))

/-- Constraints of `UpdateIssueInput`. -/
def UpdateIssueInputValid (a : ToolArgs) : Bool :=
  (match a.issue_id with
   | none => false
   | some i => decide (1 ≤ i.length))
  && (match a.title with
      | none => true
      | some t => decide (t.length ≤ 500))

/-- Constraints of `OptionalProjectInput`: everything optional. -/
def OptionalProjectInputValid (_ : ToolArgs) : Bool := true

/-- Constraints of `LogWorkInput`. -/
def LogWorkInputValid (a : ToolArgs) : Bool :=
  (match a.issue_id with
   | none => false
   | some i => decide (1 ≤ i.length))
  && (match a.summary with
      | none => false
      | some s => decide (1 ≤ s.length))
  && (match a.hours with
      | none => true
      | some h => decide (0 ≤ h))

/-- Constraints of `StatusFilterInput`: everything optional. -/
def StatusFilterInputValid (_ : ToolArgs) : Bool := true

/-- Constraints of `CreateDecisionInput`. -/
def CreateDecisionInputValid (a : ToolArgs) : Bool :=
  (match a.title with
   | none => false
   | some t => decide (1 ≤ t.length) && decide (t.length ≤ 500))
  && (match a.description with
      | none => false
      | some d => decide (1 ≤ d.length))
  && (match a.decision_type with
      | none => true
      | some dt => decide (dt ∈ ["strategic", "tactical"]))

/-- Constraints of `AddCommentInput`. -/
def AddCommentInputValid (a : ToolArgs) : Bool :=
  (match a.entity_type with
   | none => false
   | some et => decide (et ∈ ["issue", "project", "initiative", "decision"]))
  && (match a.entity_id with
      | none => false
      | some e => decide (1 ≤ e.length))
  && (match a.content with
      | none => false
      | some c => decide (1 ≤ c.length))

/-- Stand-in for `str(exc)` of the pydantic `ValidationError`; the exact
text is produced by the pydantic library and is abstracted here — only its
position inside the handler response matters for the verified properties. -/
def pydanticErrorText (modelName : String) : String :=
  "validation error for " ++ modelName

/-- Embedding of `_validate` (tools.py lines 133-144): `none` on success,
the error response on failure. -/
def validate (check : Bool) (modelName : String) : Option ToolResponse :=
  if check then none
  else some (errorResponse ("Invalid input: " ++ pydanticErrorText modelName
    ++ ". Check the tool\x27s parameter descriptions and try again."))

/-- The HTTP client as the handlers see it: (method, path) to decoded body
or raised `TurboAPIError`. Query params and JSON payloads do not affect the
verified properties and are not part of the oracle key. -/
def HttpOracle := String → String → Except TurboAPIError String

/-- The common shape of the fifteen single-request handlers: validate, then
one `_safe_call` around one HTTP request. Returns the tool response and the
list of HTTP requests issued. -/
def runSimpleTool (check : Bool) (modelName method path : String)
    (http : HttpOracle) : ToolResponse × List (String × String) :=
  match validate check modelName with
  | some err => (err, [])
  | none => (safe_call (http method path), [(method, path)])

def list_projects (a : ToolArgs) (http : HttpOracle) :
    ToolResponse × List (String × String) :=
  runSimpleTool (ListProjectsInputValid a) "ListProjectsInput" "GET" "/projects" http

def get_project (a : ToolArgs) (http : HttpOracle) :
    ToolResponse × List (String × String) :=
  runSimpleTool (ProjectIdInputValid a) "ProjectIdInput" "GET"
    ("/projects/" ++ (a.project_id.getD "")) http

def get_project_issues (a : ToolArgs) (http : HttpOracle) :
    ToolResponse × List (String × String) :=
  runSimpleTool (ProjectIssuesInputValid a) "ProjectIssuesInput" "GET"
    ("/projects/" ++ (a.project_id.getD "") ++ "/issues") http

def list_issues (a : ToolArgs) (http : HttpOracle) :
    ToolResponse × List (String × String) :=
  runSimpleTool (ListIssuesInputValid a) "ListIssuesInput" "GET" "/issues" http

def get_issue (a : ToolArgs) (http : HttpOracle) :
    ToolResponse × List (String × String) :=
  runSimpleTool (IssueIdInputValid a) "IssueIdInput" "GET"
    ("/issues/" ++ (a.issue_id.getD "")) http

def create_issue (a : ToolArgs) (http : HttpOracle) :
    ToolResponse × List (String × String) :=
  runSimpleTool (CreateIssueInputValid a) "CreateIssueInput" "POST" "/issues" http

def update_issue (a : ToolArgs) (http : HttpOracle) :
    ToolResponse × List (String × String) :=
  runSimpleTool (UpdateIssueInputValid a) "UpdateIssueInput" "PATCH"
    ("/issues/" ++ (a.issue_id.getD "")) http

def start_issue_work (a : ToolArgs) (http : HttpOracle) :
    ToolResponse × List (String × String) :=
  runSimpleTool (IssueIdInputValid a) "IssueIdInput" "POST"
    ("/issues/" ++ (a.issue_id.getD "") ++ "/work") http

def get_work_queue (a : ToolArgs) (http : HttpOracle) :
    ToolResponse × List (String × String) :=
  runSimpleTool (OptionalProjectInputValid a) "OptionalProjectInput" "GET" "/issues" http

def get_next_issue (a : ToolArgs) (http : HttpOracle) :
    ToolResponse × List (String × String) :=
  runSimpleTool (OptionalProjectInputValid a) "OptionalProjectInput" "GET" "/issues" http

def log_work (a : ToolArgs) (http : HttpOracle) :
    ToolResponse × List (String × String) :=
  runSimpleTool (LogWorkInputValid a) "LogWorkInput" "POST"
    ("/issues/" ++ (a.issue_id.getD "") ++ "/work-logs") http

def list_initiatives (a : ToolArgs) (http : HttpOracle) :
    ToolResponse × List (String × String) :=
  runSimpleTool (StatusFilterInputValid a) "StatusFilterInput" "GET" "/initiatives" http

def list_decisions (a : ToolArgs) (http : HttpOracle) :
    ToolResponse × List (String × String) :=
  runSimpleTool (StatusFilterInputValid a) "StatusFilterInput" "GET" "/decisions" http

def create_decision (a : ToolArgs) (http : HttpOracle) :
    ToolResponse × List (String × String) :=
  runSimpleTool (CreateDecisionInputValid a) "CreateDecisionInput" "POST" "/decisions" http

def add_comment (a : ToolArgs) (http : HttpOracle) :
    ToolResponse × List (String × String) :=
  runSimpleTool (AddCommentInputValid a) "AddCommentInput" "POST" "/comments" http

/-- One issue as read by `project_status_summary`: the four keys it uses,
each possibly absent. -/
structure IssueRec where
  issue_key : Option String := none
  title : Option String := none
  status : Option String := none
  priority : Option String := none
deriving DecidableEq, Repr

/-- One entry of `high_priority_open`. -/
structure BlockerRec where
  key : Option String
  title : Option String
  priority : Option String
  status : String
deriving DecidableEq, Repr

/-- The computed summary payload. -/
structure StatusSummary where
  project : Option String
  total_issues : ℕ
  by_status : List (String × ℕ)
  high_priority_open : List BlockerRec
deriving DecidableEq, Repr

/-- The increment `by_status[status] = by_status.get(status, 0) + 1` on a
Python dict kept as an insertion-ordered association list. -/
def bumpStatus (m : List (String × ℕ)) (s : String) : List (String × ℕ) :=
  match m with
  | [] => [(s, 1)]
  | (k, v) :: rest => if k = s then (k, v + 1) :: rest else (k, v) :: bumpStatus rest s

/-- The `for issue in issue_list` loop of `project_status_summary`
(tools.py lines 421-435), accumulating the status counts and the blockers. -/
def summaryLoop : List IssueRec → List (String × ℕ) → List BlockerRec →
    List (String × ℕ) × List BlockerRec
  | [], byStatus, blockers => (byStatus, blockers)
  | issue :: rest, byStatus, blockers =>
    let status := issue.status.getD "unknown"
    let byStatus' := bumpStatus byStatus status
    let blockers' :=
      if (issue.priority = some "critical" ∨ issue.priority = some "high")
          ∧ status ≠ "closed" ∧ status ≠ "done" then
        blockers ++ [{ key := issue.issue_key, title := issue.title
                     , priority := issue.priority, status := status }]
      else blockers
    summaryLoop rest byStatus' blockers'

/-- The summary dict built by `project_status_summary` from the project
response's `name` and the fetched issue list. -/
def statusSummaryOf (projectName : Option String) (issueList : List IssueRec) :
    StatusSummary :=
  { project := projectName
  , total_issues := issueList.length
  , by_status := (summaryLoop issueList [] []).1
  , high_priority_open := (summaryLoop issueList [] []).2 }

/-- Stand-in for the `json.dumps(..., indent=2)` rendering done by `_text`;
any injective rendering serves the verified properties. -/
def renderSummary (s : StatusSummary) : String := reprStr s

/-- Embedding of the `project_status_summary` handler (tools.py lines
402-444). `fetchProject pid` is `client.get("/projects/" + pid)` followed by
`.get("name")`; `fetchIssues pid` is the issues fetch (with `limit=100`)
followed by the list-or-items unwrapping. -/
def project_status_summary (a : ToolArgs)
    (fetchProject : String → Except TurboAPIError (Option String))
    (fetchIssues : String → Except TurboAPIError (List IssueRec)) :
    ToolResponse × List (String × String) :=
  match validate (ProjectIdInputValid a) "ProjectIdInput" with
  | some err => (err, [])
  | none =>
    let pid := a.project_id.getD ""
    match fetchProject pid with
    | .error e => (errorResponse (agent_message e), [("GET", "/projects/" ++ pid)])
    | .ok name =>
      match fetchIssues pid with
      | .error e =>
        (errorResponse (agent_message e),
         [("GET", "/projects/" ++ pid), ("GET", "/projects/" ++ pid ++ "/issues")])
      | .ok issues =>
        (textResponse (renderSummary (statusSummaryOf name issues)),
         [("GET", "/projects/" ++ pid), ("GET", "/projects/" ++ pid ++ "/issues")])

/-! ## Theorems about validation and the status summary (claims C7 and C9) -/

/-- What claim C7 requires of a handler result: error-flagged, text starting
with "Invalid input:", and no HTTP request issued. -/
def invalidInputResponse (r : ToolResponse × List (String × String)) : Prop :=
  r.1.isError = true
  ∧ (∃ rest : List Char, r.1.text.data = ("Invalid input:").data ++ rest)
  ∧ r.2 = []

theorem invalid_text_prefix (modelName : String) :
    ∃ rest : List Char,
      ("Invalid input: " ++ pydanticErrorText modelName
        ++ ". Check the tool\x27s parameter descriptions and try again.").data
      = ("Invalid input:").data ++ rest := by
  have base : ∃ q, ("Invalid input: ").data = ("Invalid input:").data ++ q :=
    ⟨(" ").data, by decide⟩
  have h1 := data_prefix_append "Invalid input: " (pydanticErrorText modelName)
    "Invalid input:" base
  exact data_prefix_append _ ". Check the tool\x27s parameter descriptions and try again."
    _ h1

theorem runSimpleTool_invalid (check : Bool) (modelName method path : String)
    (http : HttpOracle) (h : check = false) :
    invalidInputResponse (runSimpleTool check modelName method path http) := by
  subst h
  simp only [runSimpleTool, validate, Bool.false_eq_true, if_false]
  exact ⟨rfl, invalid_text_prefix modelName, rfl⟩

/-- Claim C7: for each of the sixteen tools, an input rejected by its schema
produces an error-flagged response whose text begins with "Invalid input:",
and no HTTP request is issued. -/
theorem tools_invalid_input_no_request :
    (∀ (a : ToolArgs) (http : HttpOracle), ListProjectsInputValid a = false →
      invalidInputResponse (list_projects a http))
    ∧ (∀ (a : ToolArgs) (http : HttpOracle), ProjectIdInputValid a = false →
      invalidInputResponse (get_project a http))
    ∧ (∀ (a : ToolArgs) (http : HttpOracle), ProjectIssuesInputValid a = false →
      invalidInputResponse (get_project_issues a http))
    ∧ (∀ (a : ToolArgs) (http : HttpOracle), ListIssuesInputValid a = false →
      invalidInputResponse (list_issues a http))
    ∧ (∀ (a : ToolArgs) (http : HttpOracle), IssueIdInputValid a = false →
      invalidInputResponse (get_issue a http))
    ∧ (∀ (a : ToolArgs) (http : HttpOracle), CreateIssueInputValid a = false →
      invalidInputResponse (create_issue a http))
    ∧ (∀ (a : ToolArgs) (http : HttpOracle), UpdateIssueInputValid a = false →
      invalidInputResponse (update_issue a http))
    ∧ (∀ (a : ToolArgs) (http : HttpOracle), IssueIdInputValid a = false →
      invalidInputResponse (start_issue_work a http))
    ∧ (∀ (a : ToolArgs) (http : HttpOracle), OptionalProjectInputValid a = false →
      invalidInputResponse (get_work_queue a http))
    ∧ (∀ (a : ToolArgs) (http : HttpOracle), OptionalProjectInputValid a = false →
      invalidInputResponse (get_next_issue a http))
    ∧ (∀ (a : ToolArgs) (http : HttpOracle), LogWorkInputValid a = false →
      invalidInputResponse (log_work a http))
    ∧ (∀ (a : ToolArgs) (http : HttpOracle), StatusFilterInputValid a = false →
      invalidInputResponse (list_initiatives a http))
    ∧ (∀ (a : ToolArgs) (http : HttpOracle), StatusFilterInputValid a = false →
      invalidInputResponse (list_decisions a http))
    ∧ (∀ (a : ToolArgs) (http : HttpOracle), CreateDecisionInputValid a = false →
      invalidInputResponse (create_decision a http))
    ∧ (∀ (a : ToolArgs) (http : HttpOracle), AddCommentInputValid a = false →
      invalidInputResponse (add_comment a http))
    ∧ (∀ (a : ToolArgs)
         (fetchProject : String → Except TurboAPIError (Option String))
         (fetchIssues : String → Except TurboAPIError (List IssueRec)),
        ProjectIdInputValid a = false →
        invalidInputResponse (project_status_summary a fetchProject fetchIssues)) := by
  refine ⟨?_, ?_, ?_, ?_, ?_, ?_, ?_, ?_, ?_, ?_, ?_, ?_, ?_, ?_, ?_, ?_⟩
  case _ => exact fun a http h => runSimpleTool_invalid _ "ListProjectsInput" _ _ http h
  case _ => exact fun a http h => runSimpleTool_invalid _ "ProjectIdInput" _ _ http h
  case _ => exact fun a http h => runSimpleTool_invalid _ "ProjectIssuesInput" _ _ http h
  case _ => exact fun a http h => runSimpleTool_invalid _ "ListIssuesInput" _ _ http h
  case _ => exact fun a http h => runSimpleTool_invalid _ "IssueIdInput" _ _ http h
  case _ => exact fun a http h => runSimpleTool_invalid _ "CreateIssueInput" _ _ http h
  case _ => exact fun a http h => runSimpleTool_invalid _ "UpdateIssueInput" _ _ http h
  case _ => exact fun a http h => runSimpleTool_invalid _ "IssueIdInput" _ _ http h
  case _ => exact fun a http h => runSimpleTool_invalid _ "OptionalProjectInput" _ _ http h
  case _ => exact fun a http h => runSimpleTool_invalid _ "OptionalProjectInput" _ _ http h
  case _ => exact fun a http h => runSimpleTool_invalid _ "LogWorkInput" _ _ http h
  case _ => exact fun a http h => runSimpleTool_invalid _ "StatusFilterInput" _ _ http h
  case _ => exact fun a http h => runSimpleTool_invalid _ "StatusFilterInput" _ _ http h
  case _ => exact fun a http h => runSimpleTool_invalid _ "CreateDecisionInput" _ _ http h
  case _ => exact fun a http h => runSimpleTool_invalid _ "AddCommentInput" _ _ http h
  case _ =>
    intro a fetchProject fetchIssues h
    simp only [project_status_summary, validate, h, Bool.false_eq_true, if_false]
    exact ⟨rfl, invalid_text_prefix "ProjectIdInput", rfl⟩

/-- A transport oracle that always succeeds; the C7 witness shows it is
never consulted on a validation failure. -/
def nullHttp : HttpOracle := fun _ _ => .ok ""

theorem tools_invalid_input_no_request_witness :
    invalidInputResponse (create_issue { project_id := some "P" } nullHttp) :=
  tools_invalid_input_no_request.2.2.2.2.2.1 { project_id := some "P" } nullHttp (by decide)

/-- Lookup of a status count in the insertion-ordered association list, 0
when absent (matching `by_status.get(status, 0)` semantics for readers). -/
def lookupCount (m : List (String × ℕ)) (k : String) : ℕ :=
  match m with
  | [] => 0
  | (k', v) :: rest => if k' = k then v else lookupCount rest k

/-- The membership test for `high_priority_open`: priority critical or high,
status neither closed nor done. -/
def isHighOpen (issue : IssueRec) : Bool :=
  decide ((issue.priority = some "critical" ∨ issue.priority = some "high")
    ∧ issue.status.getD "unknown" ≠ "closed" ∧ issue.status.getD "unknown" ≠ "done")

/-- The record appended to `high_priority_open` for a qualifying issue. -/
def toBlocker (issue : IssueRec) : BlockerRec :=
  { key := issue.issue_key, title := issue.title
  , priority := issue.priority, status := issue.status.getD "unknown" }

theorem bump_lookup (m : List (String × ℕ)) (s k : String) :
    lookupCount (bumpStatus m s) k = lookupCount m k + (if s = k then 1 else 0) := by
  induction m with
  | nil =>
    simp only [bumpStatus, lookupCount]
    by_cases h : s = k
    · simp [h]
    · simp [h]
  | cons kv rest ih =>
    obtain ⟨k', v⟩ := kv
    simp only [bumpStatus]
    by_cases hks : k' = s
    · rw [if_pos hks]
      simp only [lookupCount]
      by_cases hkk : k' = k
      · rw [if_pos hkk, if_pos hkk, if_pos (by rw [← hks, hkk])]
      · rw [if_neg hkk, if_neg hkk, if_neg (by rw [← hks]; exact fun h => hkk h)]
        simp
    · rw [if_neg hks]
      simp only [lookupCount]
      by_cases hkk : k' = k
      · rw [if_pos hkk, if_pos hkk, if_neg (by intro h; exact hks (by rw [hkk, h]))]
        simp
      · rw [if_neg hkk, if_neg hkk, ih]

theorem summaryLoop_lookup (st : String) (issues : List IssueRec) :
    ∀ (byStatus : List (String × ℕ)) (blockers : List BlockerRec),
    lookupCount (summaryLoop issues byStatus blockers).1 st
      = lookupCount byStatus st
        + (issues.filter (fun i => i.status.getD "unknown" == st)).length := by
  induction issues with
  | nil =>
    intro byStatus blockers
    simp [summaryLoop]
  | cons issue rest ih =>
    intro byStatus blockers
    simp only [summaryLoop]
    rw [ih, bump_lookup, List.filter_cons]
    by_cases hst : issue.status.getD "unknown" = st
    · rw [if_pos hst, if_pos (by simp [hst])]
      simp only [List.length_cons]
      omega
    · rw [if_neg hst, if_neg (by simp [hst])]
      omega

theorem summaryLoop_blockers (issues : List IssueRec) :
    ∀ (byStatus : List (String × ℕ)) (blockers : List BlockerRec),
    (summaryLoop issues byStatus blockers).2
      = blockers ++ (issues.filter isHighOpen).map toBlocker := by
  induction issues with
  | nil =>
    intro byStatus blockers
    simp [summaryLoop]
  | cons issue rest ih =>
    intro byStatus blockers
    simp only [summaryLoop]
    rw [ih, List.filter_cons]
    by_cases hc : (issue.priority = some "critical" ∨ issue.priority = some "high")
        ∧ issue.status.getD "unknown" ≠ "closed" ∧ issue.status.getD "unknown" ≠ "done"
    · rw [if_pos hc, if_pos (by simpa [isHighOpen] using hc)]
      simp only [List.map_cons]
      rw [List.append_assoc, List.singleton_append]
      rfl
    · rw [if_neg hc, if_neg (by simpa [isHighOpen] using hc)]

/-- Claim C9: the summary computed by `project_status_summary` carries the
project name, counts every fetched issue in `total_issues`, maps each status
to the number of fetched issues with that status, lists in
`high_priority_open` exactly the issues whose priority is critical or high
and whose status is neither closed nor done (in order, as
key/title/priority/status records), and on a validated input with both
fetches succeeding the handler returns exactly this summary. -/
theorem project_status_summary_correct :
    ∀ (name : Option String) (issues : List IssueRec),
    (statusSummaryOf name issues).project = name
    ∧ (statusSummaryOf name issues).total_issues = issues.length
    ∧ (∀ st : String, lookupCount (statusSummaryOf name issues).by_status st
        = (issues.filter (fun i => i.status.getD "unknown" == st)).length)
    ∧ (statusSummaryOf name issues).high_priority_open
        = (issues.filter isHighOpen).map toBlocker
    ∧ (∀ (a : ToolArgs)
         (fetchProject : String → Except TurboAPIError (Option String))
         (fetchIssues : String → Except TurboAPIError (List IssueRec)),
        ProjectIdInputValid a = true →
        fetchProject (a.project_id.getD "") = .ok name →
        fetchIssues (a.project_id.getD "") = .ok issues →
        (project_status_summary a fetchProject fetchIssues).1
          = textResponse (renderSummary (statusSummaryOf name issues))) := by
  intro name issues
  refine ⟨rfl, rfl, ?_, ?_, ?_⟩
  · intro st
    show lookupCount (summaryLoop issues [] []).1 st = _
    rw [summaryLoop_lookup st issues [] []]
    simp [lookupCount]
  · show (summaryLoop issues [] []).2 = _
    rw [summaryLoop_blockers issues [] []]
    exact List.nil_append _
  · intro a fetchProject fetchIssues hv hfp hfi
    simp only [project_status_summary, validate, hv, if_true, hfp, hfi]

def demoIssues : List IssueRec :=
  [{ issue_key := some "DEMO-1", title := some "Crash on save"
   , status := some "in_progress", priority := some "critical" },
   { issue_key := some "DEMO-2", title := some "Slow dashboard"
   , status := some "open", priority := some "high" },
   { issue_key := some "DEMO-3", title := some "Typo in footer"
   , status := some "open", priority := some "low" }]

def demoFetchProject : String → Except TurboAPIError (Option String) :=
  fun _ => .ok (some "Demo")

def demoFetchIssues : String → Except TurboAPIError (List IssueRec) :=
  fun _ => .ok demoIssues

theorem project_status_summary_correct_witness :
    (project_status_summary { project_id := some "P" } demoFetchProject demoFetchIssues).1
      = textResponse (renderSummary (statusSummaryOf (some "Demo") demoIssues))
    ∧ lookupCount (statusSummaryOf (some "Demo") demoIssues).by_status "open"
      = (demoIssues.filter (fun i => i.status.getD "unknown" == "open")).length :=
  ⟨(project_status_summary_correct (some "Demo") demoIssues).2.2.2.2
      { project_id := some "P" } demoFetchProject demoFetchIssues (by decide) rfl rfl,
   (project_status_summary_correct (some "Demo") demoIssues).2.2.1 "open"⟩
